import Mathlib

/-!
Verification of the `syo-ryo-uma` CLI animation program (`src/index.js`).

The development shallowly embeds the program's pure core:

* the frame compositor `renderFrame` (per-row composition `composeRow`),
* the art loader's line filtering `loadArtLines` (with a JS-style `split`),
* the scroll driver `animate` / `animateBoth` as event traces,
* the static renderer `renderStatic` as an event trace,
* the CLI dispatch `mainPlan` of `main`.

Side effects (terminal writes, sleeps) are represented as explicit event
lists; machine-level details (Node `process`, timers) are abstracted into
those events.  All definitions are computable so that concrete runs can be
evaluated inside proofs.
-/

namespace SyoRyoUma

/-- Terminal dimensions, as returned by `getTerminalSize` in the source. -/
structure Viewport where
  width : Nat
  height : Nat
deriving DecidableEq, Repr

/-- JS `String.prototype.padEnd(w, ' ')`: pad on the right with spaces up to
length `w` (no-op when the string is already at least `w` long). -/
def padEnd (s : List Char) (w : Nat) : List Char :=
  s ++ List.replicate (w - s.length) ' '

/-- One row of the frame, from `renderFrame` in `src/index.js` (lines
128-147): the three-branch case split on the offset, followed by the final
`lineContent.slice(0, term.width)`.

* `xPosition >= term.width`: the art is completely off screen, a row of
  `term.width` spaces;
* `xPosition > 0`: art entering from the right, `xPosition` spaces then
  `artLine.slice(0, term.width - xPosition)`, padded to `term.width`;
* otherwise: `artLine.slice(|x|, |x| + term.width)`, padded to
  `term.width`. -/
def composeRow (line : List Char) (xPosition : Int) (w : Nat) : List Char :=
  (if (w : Int) ≤ xPosition then
    List.replicate w ' '
  else if 0 < xPosition then
    padEnd (List.replicate xPosition.toNat ' ' ++ line.take (w - xPosition.toNat)) w
  else
    padEnd ((line.drop xPosition.natAbs).take w) w).take w

/-- `Math.max(0, Math.floor((term.height - artHeight) / 2))`, the vertical
centering computation of `renderFrame` (line 113).  `Int.fdiv` is the
floor division that `Math.floor` of a real quotient performs. -/
def verticalCenter (termHeight artHeight : Nat) : Int :=
  max 0 (Int.fdiv ((termHeight : Int) - (artHeight : Int)) 2)

/-- The frame built by `renderFrame` (lines 108-159), as the list of its
rows' printable contents (cursor-positioning and clear-to-end-of-line
escapes, which carry no printable characters, are not part of the row
content).  Screen rows run `1 .. term.height`; row `screenY` shows art line
`screenY - verticalCenter - 1` when that index is in range and is blank
otherwise. -/
def renderFrame (art : List (List Char)) (xPosition : Int) (v : Viewport) : List (List Char) :=
  let c := verticalCenter v.height art.length
  (List.range v.height).map (fun (i : Nat) =>
    let screenY : Int := (i : Int) + 1
    let artLineIdx : Int := screenY - c - 1
    if 0 ≤ artLineIdx ∧ artLineIdx < (art.length : Int) then
      composeRow (art.getD artLineIdx.toNat []) xPosition v.width
    else
      List.replicate v.width ' ')

/-- The whitespace class used by JS `String.prototype.trim` (restricted to
the ASCII whitespace characters that can occur in the art files). -/
def jsIsWhitespace (c : Char) : Bool :=
  c = ' ' || c = '\t' || c = '\n' || c = '\r' || c = '\x0b' || c = '\x0c'

/-- JS `String.prototype.split(sep)` for a one-character separator: always
returns at least one (possibly empty) piece. -/
def jsSplit (sep : Char) : List Char → List (List Char)
  | [] => [[]]
  | c :: rest =>
    match jsSplit sep rest with
    | [] => [[c]]
    | l :: ls => if c = sep then [] :: l :: ls else (c :: l) :: ls

/-- `line.trim().length > 0`: the line has some non-whitespace character. -/
def lineIsNonBlank (line : List Char) : Bool :=
  line.any (fun c => !jsIsWhitespace c)

/-- The line filtering of `loadArt` (lines 32-35):
`content.split('\n').filter((line, idx, arr) => idx < arr.length - 1 || line.trim().length > 0)`. -/
def loadArtLines (content : List Char) : List (List Char) :=
  let arr := jsSplit '\n' content
  ((arr.enum).filter (fun p => p.1 < arr.length - 1 || lineIsNonBlank p.2)).map Prod.snd

/-- Outcome of the `console.error` + `process.exit(1)` path of `loadArt`:
the resource name, the underlying cause, and the process exit status. -/
structure LoadError where
  resource : String
  cause : String
  exitCode : Nat
deriving DecidableEq, Repr

/-- `loadArt` (lines 28-40) over an explicit read result standing for
`fs.readFileSync`: a successful read is split and filtered; a failed read
reports the file name together with the error message and exits with
status 1 (the `catch` branch).  There is no retry: the read is attempted
exactly once. -/
def loadArt (filename : String) (readResult : Except String (List Char)) :
    Except LoadError (List (List Char)) :=
  match readResult with
  | .ok content => .ok (loadArtLines content)
  | .error msg => .error { resource := filename, cause := msg, exitCode := 1 }

/-- One observable effect of an animation run: a frame written for a given
art at a given offset, a `setTimeout` suspension, or one of the terminal
control writes. -/
inductive Ev where
  | frame (art : List (List Char)) (xPosition : Int)
  | sleep (ms : Nat)
  | enterAlt
  | exitAlt
  | hideCur
  | showCur
  | clear
deriving DecidableEq, Repr

/-- `Math.max(...art.map(line => line.length))` for a non-empty art (for an
empty art JS would give `-Infinity`, which no `ArtBuffer` produced by
`loadArt` on an art file triggers; theorems about scrolling therefore
assume the art non-empty). -/
def artWidth (art : List (List Char)) : Nat :=
  (art.map List.length).foldr max 0

/-- The leftward scroll loop (`for (let x = start; x >= bound; x -= 2)`,
lines 187-190): at each iteration a frame at the current offset followed by
a `speed`-millisecond suspension. -/
def scrollDown (art : List (List Char)) (speed : Nat) (x bound : Int) : List Ev :=
  if x < bound then []
  else Ev.frame art x :: Ev.sleep speed :: scrollDown art speed (x - 2) bound
termination_by (x - bound + 2).toNat
decreasing_by simp_wf; omega

/-- The rightward scroll loop (`for (let x = start; x <= bound; x += 2)`,
lines 181-184). -/
def scrollUp (art : List (List Char)) (speed : Nat) (x bound : Int) : List Ev :=
  if bound < x then []
  else Ev.frame art x :: Ev.sleep speed :: scrollUp art speed (x + 2) bound
termination_by (bound - x + 2).toNat
decreasing_by simp_wf; omega

/-- The offsets `x` visited by the leftward loop, i.e. `x0, x0 - 2, …` while
`x ≥ bound`. -/
def offsetsDown (x bound : Int) : List Int :=
  if x < bound then [] else x :: offsetsDown (x - 2) bound
termination_by (x - bound + 2).toNat
decreasing_by simp_wf; omega

/-- The offsets visited by the rightward loop, `x0, x0 + 2, …` while
`x ≤ bound`. -/
def offsetsUp (x bound : Int) : List Int :=
  if bound < x then [] else x :: offsetsUp (x + 2) bound
termination_by (bound - x + 2).toNat
decreasing_by simp_wf; omega

/-- The event trace of `animate` (lines 169-197): optional setup
(enter alternate buffer, hide cursor, clear) when `keepBuffer` is false, a
leftward or rightward scroll across the viewport, optional teardown. -/
def animateTrace (art : List (List Char)) (speed : Nat) (keepBuffer reverse : Bool)
    (v : Viewport) : List Ev :=
  let aw : Int := artWidth art
  (if keepBuffer then [] else [Ev.enterAlt, Ev.hideCur, Ev.clear])
  ++ (if reverse then scrollUp art speed (-aw) v.width
      else scrollDown art speed v.width (-aw))
  ++ (if keepBuffer then [] else [Ev.showCur, Ev.exitAlt])

/-- The event trace of `animateBoth` (lines 205-252): one enter/hide/clear,
the first figure's full scroll, a `speed * PAUSE_MULTIPLIER` suspension
(PAUSE_MULTIPLIER = 3) with no intervening frame, the second figure's full
scroll, then one show/exit.  The four loaded arts are parameters; `reverse`
selects the reverse-orientation variants exactly as lines 212-213 do. -/
def animateBothTrace (cu cuR eg egR : List (List Char)) (speed : Nat) (reverse : Bool)
    (v : Viewport) : List Ev :=
  let cucumberArt := if reverse then cuR else cu
  let eggplantArt := if reverse then egR else eg
  let cw : Int := artWidth cucumberArt
  let ew : Int := artWidth eggplantArt
  [Ev.enterAlt, Ev.hideCur, Ev.clear]
  ++ (if reverse then scrollUp cucumberArt speed (-cw) v.width
      else scrollDown cucumberArt speed v.width (-cw))
  ++ [Ev.sleep (speed * 3)]
  ++ (if reverse then scrollUp eggplantArt speed (-ew) v.width
      else scrollDown eggplantArt speed v.width (-ew))
  ++ [Ev.showCur, Ev.exitAlt]

/-- The offsets of the frames occurring in a trace, in order. -/
def frameOffsets (evs : List Ev) : List Int :=
  evs.filterMap (fun e => match e with
    | Ev.frame _ x => some x
    | _ => none)

/-- One observable effect of `renderStatic`: a cursor-visibility control
write or a `console.log` of one line to the normal output stream. -/
inductive OutEv where
  | hideCur
  | showCur
  | line (content : List Char)
deriving DecidableEq, Repr

/-- `renderStatic` (lines 258-273) as the ordered list of its writes.  The
argument mirrors the two call shapes distinguished by `Array.isArray(arts[0])`:
a single art (`Sum.inl`) or a pair of arts (`Sum.inr`).  The cursor is
hidden first, each art line is logged in order (for a pair: first art, two
empty logged lines, second art), and the cursor is shown last. -/
def renderStatic (arts : List (List Char) ⊕ (List (List Char) × List (List Char))) :
    List OutEv :=
  [OutEv.hideCur]
  ++ (match arts with
      | Sum.inl art => art.map OutEv.line
      | Sum.inr (a, b) =>
          a.map OutEv.line ++ [OutEv.line [], OutEv.line []] ++ b.map OutEv.line)
  ++ [OutEv.showCur]

/-- JS `c.toLowerCase()` on one character, restricted to ASCII (the only
characters the CLI arguments compare against). -/
def jsCharToLower (c : Char) : Char :=
  if 'A' ≤ c ∧ c ≤ 'Z' then Char.ofNat (c.toNat + 32) else c

/-- JS `s.toLowerCase()` (ASCII). -/
def jsToLowerCase (s : String) : String :=
  ⟨s.data.map jsCharToLower⟩

/-- JS `arg.startsWith('--')`. -/
def beginsWithTwoDashes (s : String) : Bool :=
  match s.data with
  | '-' :: '-' :: _ => true
  | _ => false

/-- The value of a (non-empty) leading digit run. -/
def digitsToNat (ds : List Char) : Nat :=
  ds.foldl (fun acc c => acc * 10 + (c.toNat - '0'.toNat)) 0

/-- JS `parseInt(s)` in its base-10 form: skip leading whitespace, accept an
optional sign, then read a maximal run of leading decimal digits; `none`
models `NaN` (no digit found). -/
def jsParseInt (s : String) : Option Int :=
  let l := s.data.dropWhile jsIsWhitespace
  match l with
  | '-' :: rest =>
      let ds := rest.takeWhile Char.isDigit
      if ds.isEmpty then none else some (-(digitsToNat ds : Int))
  | '+' :: rest =>
      let ds := rest.takeWhile Char.isDigit
      if ds.isEmpty then none else some ((digitsToNat ds : Int))
  | _ =>
      let ds := l.takeWhile Char.isDigit
      if ds.isEmpty then none else some ((digitsToNat ds : Int))

/-- What `main` decides to run once, as a value: help text, a static
display, a single-figure animation, or the sequential dual-figure
animation.  `main` performs exactly one of these and returns; no
constructor repeats its animation. -/
inductive Plan where
  | help
  | staticSingle (art : List (List Char))
  | staticBoth (first second : List (List Char))
  | animateSingle (art : List (List Char)) (speed : Int) (reverse : Bool)
  | animateBoth (speed : Int) (reverse : Bool)
deriving DecidableEq, Repr

/-- The argument handling and dispatch of `main` (lines 316-367), over the
four loaded arts.  `--help`/`-h` short-circuits; `--stay` and `--reverse`
are presence flags; arguments starting with `--` are filtered out of the
positional list; a numeric first positional argument is the speed (with
`parseInt(...) || 30` defaulting for the second-position speed, so `0` and
non-numeric both fall back to 30); the character selects the figure
case-insensitively, anything other than cucumber/eggplant meaning both. -/
def mainPlan (cu cuR eg egR : List (List Char)) (args : List String) : Plan :=
  if args.contains "--help" || args.contains "-h" then Plan.help
  else
    let stayMode := args.contains "--stay"
    let reverseMode := args.contains "--reverse"
    let filteredArgs := args.filter (fun a => !beginsWithTwoDashes a)
    let firstArgIsNumber :=
      match filteredArgs.head? with
      | some a => a != "" && (jsParseInt a).isSome
      | none => false
    let character : String :=
      if firstArgIsNumber then "default"
      else
        match filteredArgs.head? with
        | some a => if a = "" then "default" else a
        | none => "default"
    let speed : Int :=
      if firstArgIsNumber then (jsParseInt (filteredArgs.headD "")).getD 30
      else
        match filteredArgs.get? 1 with
        | some a =>
            match jsParseInt a with
            | some n => if n = 0 then (30 : Int) else n
            | none => 30
        | none => 30
    if jsToLowerCase character = "cucumber" then
      if stayMode then Plan.staticSingle (if reverseMode then cuR else cu)
      else Plan.animateSingle (if reverseMode then cuR else cu) speed reverseMode
    else if jsToLowerCase character = "eggplant" then
      if stayMode then Plan.staticSingle (if reverseMode then egR else eg)
      else Plan.animateSingle (if reverseMode then egR else eg) speed reverseMode
    else
      if stayMode then
        Plan.staticBoth (if reverseMode then cuR else cu) (if reverseMode then egR else eg)
      else Plan.animateBoth speed reverseMode

/-! ### Row-level lemmas about the compositor -/

theorem composeRow_length (line : List Char) (x : Int) (w : Nat) :
    (composeRow line x w).length = w := by
  unfold composeRow padEnd
  split
  · simp
  · split <;> (simp; try omega)

theorem composeRow_blank_right (line : List Char) (x : Int) (w : Nat)
    (h : (w : Int) ≤ x) : composeRow line x w = List.replicate w ' ' := by
  unfold composeRow
  rw [if_pos h]
  simp

theorem composeRow_blank_left (line : List Char) (x : Int) (w : Nat)
    (hx : x ≤ 0) (hlen : line.length ≤ x.natAbs) :
    composeRow line x w = List.replicate w ' ' := by
  unfold composeRow padEnd
  by_cases h : (w : Int) ≤ x
  · rw [if_pos h]
    simp
  · rw [if_neg h, if_neg (by omega : ¬ (0 < x)), List.drop_eq_nil_of_le hlen]
    simp

theorem renderFrame_length (art : List (List Char)) (x : Int) (v : Viewport) :
    (renderFrame art x v).length = v.height := by
  simp only [renderFrame, List.length_map, List.length_range]

theorem renderFrame_row_length (art : List (List Char)) (x : Int) (v : Viewport) :
    ∀ row ∈ renderFrame art x v, row.length = v.width := by
  intro row hrow
  simp only [renderFrame, List.mem_map, List.mem_range] at hrow
  obtain ⟨i, _, rfl⟩ := hrow
  split
  · exact composeRow_length ..
  · simp

theorem renderFrame_getElem? (art : List (List Char)) (x : Int) (v : Viewport) (i : Nat)
    (hi : i < v.height) :
    (renderFrame art x v)[i]? =
      some (if 0 ≤ ((i : Int) + 1) - verticalCenter v.height art.length - 1 ∧
               ((i : Int) + 1) - verticalCenter v.height art.length - 1 < (art.length : Int)
            then
              composeRow
                (art.getD (((i : Int) + 1) - verticalCenter v.height art.length - 1).toNat [])
                x v.width
            else List.replicate v.width ' ') := by
  unfold renderFrame
  rw [List.getElem?_map, List.getElem?_range hi]
  rfl

theorem renderFrame_eq_blank (art : List (List Char)) (x : Int) (v : Viewport)
    (h : ∀ line ∈ art, composeRow line x v.width = List.replicate v.width ' ') :
    renderFrame art x v = List.replicate v.height (List.replicate v.width ' ') := by
  apply List.ext_getElem
  · simp [renderFrame_length]
  · intro i h1 h2
    rw [List.getElem_replicate]
    unfold renderFrame
    rw [List.getElem_map, List.getElem_range]
    dsimp only
    split
    · rename_i hc
      have hlt : (((i : Int) + 1) - verticalCenter v.height art.length - 1).toNat <
          art.length := by omega
      rw [List.getD_eq_getElem _ _ hlt]
      exact h _ (List.getElem_mem hlt)
    · rfl

/-- **C2.** For every art buffer, every offset and every viewport, the frame
composed by `renderFrame` has exactly `v.height` rows, and each row's
printable content is exactly `v.width` characters, regardless of the art's
dimensions or the offset. -/
theorem C2_frame_dimensions (art : List (List Char)) (x : Int) (v : Viewport) :
    (renderFrame art x v).length = v.height ∧
    ∀ row ∈ renderFrame art x v, row.length = v.width :=
  ⟨renderFrame_length art x v, renderFrame_row_length art x v⟩

/-- Witness for C2 at a concrete art, offset and viewport. -/
theorem C2_frame_dimensions_witness :
    (renderFrame [['A', 'B', 'C']] 1 ⟨4, 3⟩).length = 3 ∧
    ((renderFrame [['A', 'B', 'C']] 1 ⟨4, 3⟩).getD 1 []).length = 4 :=
  ⟨(C2_frame_dimensions [['A', 'B', 'C']] 1 ⟨4, 3⟩).1,
   (C2_frame_dimensions [['A', 'B', 'C']] 1 ⟨4, 3⟩).2 _ (by decide)⟩

/-- **C7.** When the offset is at least the viewport width, every row that
`renderFrame` composes for an art line is entirely spaces (first branch of
the case split), so the whole frame is blank. -/
theorem C7_offscreen_right_blank (art : List (List Char)) (x : Int) (v : Viewport)
    (h : (v.width : Int) ≤ x) :
    (∀ line ∈ art, composeRow line x v.width = List.replicate v.width ' ') ∧
    renderFrame art x v = List.replicate v.height (List.replicate v.width ' ') :=
  ⟨fun line _ => composeRow_blank_right line x v.width h,
   renderFrame_eq_blank art x v (fun line _ => composeRow_blank_right line x v.width h)⟩

/-- Witness for C7: offset 5 on a width-3 viewport. -/
theorem C7_offscreen_right_blank_witness :
    renderFrame [['A']] 5 ⟨3, 2⟩ = List.replicate 2 (List.replicate 3 ' ') :=
  (C7_offscreen_right_blank [['A']] 5 ⟨3, 2⟩ (by decide)).2

/-- **C8.** For every offset `x ≤ 0` whose absolute value is at least the
length of an art row, the row content `renderFrame` composes for that art
row (the `x ≤ 0` substring-slicing branch) is entirely spaces: the slicing
is total and yields empty visible art for arbitrarily negative offsets,
with no extra clamping logic. -/
theorem C8_offscreen_left_blank (line : List Char) (x : Int) (w : Nat)
    (hx : x ≤ 0) (hlen : line.length ≤ x.natAbs) :
    composeRow line x w = List.replicate w ' ' :=
  composeRow_blank_left line x w hx hlen

/-- Witness for C8: offset −5 on a length-2 art row. -/
theorem C8_offscreen_left_blank_witness :
    composeRow ['A', 'B'] (-5) 4 = List.replicate 4 ' ' :=
  C8_offscreen_left_blank ['A', 'B'] (-5) 4 (by decide) (by decide)

theorem verticalCenter_of_le (h a : Nat) (hle : a ≤ h) :
    verticalCenter h a = (((h - a) / 2 : Nat) : Int) := by
  unfold verticalCenter
  rw [show ((h : Int) - (a : Int)) = ((h - a : Nat) : Int) by omega]
  rw [Int.fdiv_eq_ediv _ (by omega)]
  rw [max_eq_right (by omega : (0 : Int) ≤ ((h - a : Nat) : Int) / 2)]
  omega

/-- **C6.** For art no taller than the viewport, the rows rendered from art
are exactly the screen rows (1-indexed) from `(v.height - art.height)/2 + 1`
through `(v.height - art.height)/2 + art.height` — row `y` in that band
shows art line `y - (v.height - art.height)/2 - 1` — and every row outside
the band is entirely spaces. -/
theorem C6_vertical_centering (art : List (List Char)) (x : Int) (v : Viewport) (y : Nat)
    (hle : art.length ≤ v.height) (hy1 : 1 ≤ y) (hy2 : y ≤ v.height) :
    (((v.height - art.length) / 2 + 1 ≤ y ∧ y ≤ (v.height - art.length) / 2 + art.length) →
      (renderFrame art x v)[y - 1]? =
        some (composeRow (art.getD (y - (v.height - art.length) / 2 - 1) []) x v.width)) ∧
    ((y < (v.height - art.length) / 2 + 1 ∨ (v.height - art.length) / 2 + art.length < y) →
      (renderFrame art x v)[y - 1]? = some (List.replicate v.width ' ')) := by
  have hvc := verticalCenter_of_le v.height art.length hle
  have hidx : y - 1 < v.height := by omega
  have hget := renderFrame_getElem? art x v (y - 1) hidx
  rw [hvc] at hget
  constructor
  · intro hband
    rw [hget, if_pos (by omega)]
    have harg : ((((y - 1 : Nat) : Int) + 1) - (((v.height - art.length) / 2 : Nat) : Int)
        - 1).toNat = y - (v.height - art.length) / 2 - 1 := by omega
    rw [harg]
  · intro hout
    rw [hget, if_neg (by omega)]

/-- Witness for C6: a 2-line art on a 3×4 viewport is centered starting at
screen row 2, which shows the first art line. -/
theorem C6_vertical_centering_witness :
    (renderFrame [['A'], ['B']] 0 ⟨3, 4⟩)[1]? = some (composeRow ['A'] 0 3) :=
  (C6_vertical_centering [['A'], ['B']] 0 ⟨3, 4⟩ 2 (by decide) (by decide) (by decide)).1
    (by decide)

/-! ### Scroll-driver lemmas -/

theorem mem_offsetsDown (x bound : Int) :
    ∀ a, a ∈ offsetsDown x bound ↔ bound ≤ a ∧ a ≤ x ∧ (x - a) % 2 = 0 := by
  induction x, bound using offsetsDown.induct with
  | case1 x bound h =>
    intro a
    rw [offsetsDown]
    simp only [if_pos h, List.not_mem_nil, false_iff]
    omega
  | case2 x bound h ih =>
    intro a
    rw [offsetsDown]
    simp only [if_neg h, List.mem_cons, ih]
    omega

theorem mem_offsetsUp (x bound : Int) :
    ∀ a, a ∈ offsetsUp x bound ↔ x ≤ a ∧ a ≤ bound ∧ (a - x) % 2 = 0 := by
  induction x, bound using offsetsUp.induct with
  | case1 x bound h =>
    intro a
    rw [offsetsUp]
    simp only [if_pos h, List.not_mem_nil, false_iff]
    omega
  | case2 x bound h ih =>
    intro a
    rw [offsetsUp]
    simp only [if_neg h, List.mem_cons, ih]
    omega

theorem getLast?_offsetsDown (x bound : Int) (h : bound ≤ x) (hpar : (x - bound) % 2 = 0) :
    (offsetsDown x bound).getLast? = some bound := by
  induction x, bound using offsetsDown.induct with
  | case1 x bound hlt => omega
  | case2 x bound hlt ih =>
    rw [offsetsDown, if_neg hlt]
    by_cases h2 : x - 2 < bound
    · rw [offsetsDown, if_pos h2]
      have hxb : x = bound := by omega
      simp [hxb]
    · have hys : offsetsDown (x - 2) bound = (x - 2) :: offsetsDown (x - 2 - 2) bound := by
        conv_lhs => rw [offsetsDown]
        rw [if_neg h2]
      rw [hys, List.getLast?_cons_cons, ← hys]
      exact ih (by omega) (by omega)

theorem getLast?_offsetsUp (x bound : Int) (h : x ≤ bound) (hpar : (bound - x) % 2 = 0) :
    (offsetsUp x bound).getLast? = some bound := by
  induction x, bound using offsetsUp.induct with
  | case1 x bound hlt => omega
  | case2 x bound hlt ih =>
    rw [offsetsUp, if_neg hlt]
    by_cases h2 : bound < x + 2
    · rw [offsetsUp, if_pos h2]
      have hxb : x = bound := by omega
      simp [hxb]
    · have hys : offsetsUp (x + 2) bound = (x + 2) :: offsetsUp (x + 2 + 2) bound := by
        conv_lhs => rw [offsetsUp]
        rw [if_neg h2]
      rw [hys, List.getLast?_cons_cons, ← hys]
      exact ih (by omega) (by omega)

theorem scrollDown_eq_bind (art : List (List Char)) (speed : Nat) (x bound : Int) :
    scrollDown art speed x bound =
      (offsetsDown x bound).bind (fun o => [Ev.frame art o, Ev.sleep speed]) := by
  induction x, bound using offsetsDown.induct with
  | case1 x bound h => rw [offsetsDown, if_pos h, scrollDown, if_pos h]; rfl
  | case2 x bound h ih => rw [offsetsDown, if_neg h, scrollDown, if_neg h]; simp [ih]

theorem scrollUp_eq_bind (art : List (List Char)) (speed : Nat) (x bound : Int) :
    scrollUp art speed x bound =
      (offsetsUp x bound).bind (fun o => [Ev.frame art o, Ev.sleep speed]) := by
  induction x, bound using offsetsUp.induct with
  | case1 x bound h => rw [offsetsUp, if_pos h, scrollUp, if_pos h]; rfl
  | case2 x bound h ih => rw [offsetsUp, if_neg h, scrollUp, if_neg h]; simp [ih]

theorem frameOffsets_append (l1 l2 : List Ev) :
    frameOffsets (l1 ++ l2) = frameOffsets l1 ++ frameOffsets l2 := by
  simp [frameOffsets]

theorem frameOffsets_nil : frameOffsets [] = [] := rfl

theorem frameOffsets_setup : frameOffsets [Ev.enterAlt, Ev.hideCur, Ev.clear] = [] := rfl

theorem frameOffsets_teardown : frameOffsets [Ev.showCur, Ev.exitAlt] = [] := rfl

theorem frameOffsets_cons_enterAlt (l : List Ev) :
    frameOffsets (Ev.enterAlt :: l) = frameOffsets l := rfl

theorem frameOffsets_cons_exitAlt (l : List Ev) :
    frameOffsets (Ev.exitAlt :: l) = frameOffsets l := rfl

theorem frameOffsets_cons_hideCur (l : List Ev) :
    frameOffsets (Ev.hideCur :: l) = frameOffsets l := rfl

theorem frameOffsets_cons_showCur (l : List Ev) :
    frameOffsets (Ev.showCur :: l) = frameOffsets l := rfl

theorem frameOffsets_cons_clear (l : List Ev) :
    frameOffsets (Ev.clear :: l) = frameOffsets l := rfl

theorem frameOffsets_cons_sleep (ms : Nat) (l : List Ev) :
    frameOffsets (Ev.sleep ms :: l) = frameOffsets l := rfl

theorem frameOffsets_scrollDown (art : List (List Char)) (speed : Nat) (x bound : Int) :
    frameOffsets (scrollDown art speed x bound) = offsetsDown x bound := by
  induction x, bound using offsetsDown.induct with
  | case1 x bound h => rw [offsetsDown, if_pos h, scrollDown, if_pos h]; rfl
  | case2 x bound h ih =>
    rw [offsetsDown, if_neg h, scrollDown, if_neg h]
    simp [frameOffsets, List.filterMap_cons] at ih ⊢
    exact ih

theorem frameOffsets_scrollUp (art : List (List Char)) (speed : Nat) (x bound : Int) :
    frameOffsets (scrollUp art speed x bound) = offsetsUp x bound := by
  induction x, bound using offsetsUp.induct with
  | case1 x bound h => rw [offsetsUp, if_pos h, scrollUp, if_pos h]; rfl
  | case2 x bound h ih =>
    rw [offsetsUp, if_neg h, scrollUp, if_neg h]
    simp [frameOffsets, List.filterMap_cons] at ih ⊢
    exact ih

theorem artWidth_cons (l : List Char) (rest : List (List Char)) :
    artWidth (l :: rest) = max l.length (artWidth rest) := rfl

theorem length_le_artWidth (art : List (List Char)) :
    ∀ line ∈ art, line.length ≤ artWidth art := by
  induction art with
  | nil => simp
  | cons l rest ih =>
    intro line hline
    rcases List.mem_cons.mp hline with rfl | hmem
    · rw [artWidth_cons]; exact le_max_left _ _
    · rw [artWidth_cons]; exact le_trans (ih line hmem) (le_max_right _ _)

theorem exists_length_eq_artWidth (art : List (List Char)) (h : art ≠ []) :
    ∃ line ∈ art, line.length = artWidth art := by
  induction art with
  | nil => exact absurd rfl h
  | cons l rest ih =>
    by_cases hr : rest = []
    · subst hr
      exact ⟨l, by simp, by rw [artWidth_cons]; simp [artWidth]⟩
    · obtain ⟨m, hm, hlen⟩ := ih hr
      rcases le_or_lt l.length (artWidth rest) with hle | hlt
      · exact ⟨m, List.mem_cons_of_mem _ hm, by rw [artWidth_cons, max_eq_right hle, hlen]⟩
      · exact ⟨l, List.mem_cons_self _ _, by rw [artWidth_cons, max_eq_left (le_of_lt hlt)]⟩

/-- **C5.** In a leftward single-figure run the frames are rendered at
offsets `v.width, v.width - 2, v.width - 4, …`, one frame per tick with a
`speed` suspension after each, for every offset `≥ -artWidth` (and exactly
those of that parity), and the loop ends when the offset first passes below
`-artWidth`; symmetrically, a rightward run steps from `-artWidth` up by 2
and ends when the offset first passes above `v.width`.  `artWidth` is the
maximum line length of the (non-empty) art. -/
theorem C5_scroll_driver (art : List (List Char)) (speed : Nat) (kb : Bool) (v : Viewport)
    (hne : art ≠ []) :
    (frameOffsets (animateTrace art speed kb false v) =
        offsetsDown (v.width) (-(artWidth art : Int)) ∧
     frameOffsets (animateTrace art speed kb true v) =
        offsetsUp (-(artWidth art : Int)) (v.width)) ∧
    (∀ x : Int, x ∈ offsetsDown (v.width) (-(artWidth art : Int)) ↔
       -(artWidth art : Int) ≤ x ∧ x ≤ (v.width : Int) ∧ ((v.width : Int) - x) % 2 = 0) ∧
    (∀ x : Int, x ∈ offsetsUp (-(artWidth art : Int)) (v.width) ↔
       -(artWidth art : Int) ≤ x ∧ x ≤ (v.width : Int) ∧ (x - (-(artWidth art : Int))) % 2 = 0) ∧
    scrollDown art speed (v.width) (-(artWidth art : Int)) =
      (offsetsDown (v.width) (-(artWidth art : Int))).bind
        (fun o => [Ev.frame art o, Ev.sleep speed]) ∧
    scrollUp art speed (-(artWidth art : Int)) (v.width) =
      (offsetsUp (-(artWidth art : Int)) (v.width)).bind
        (fun o => [Ev.frame art o, Ev.sleep speed]) ∧
    (∀ line ∈ art, line.length ≤ artWidth art) ∧
    (∃ line ∈ art, line.length = artWidth art) := by
  refine ⟨⟨?_, ?_⟩, fun a => mem_offsetsDown _ _ a, fun a => mem_offsetsUp _ _ a,
    scrollDown_eq_bind art speed _ _, scrollUp_eq_bind art speed _ _,
    length_le_artWidth art, exists_length_eq_artWidth art hne⟩
  · unfold animateTrace
    cases kb <;>
      simp [frameOffsets_append, frameOffsets_scrollDown, frameOffsets_nil,
        frameOffsets_setup, frameOffsets_teardown, frameOffsets_cons_enterAlt,
        frameOffsets_cons_hideCur, frameOffsets_cons_clear]
  · unfold animateTrace
    cases kb <;>
      simp [frameOffsets_append, frameOffsets_scrollUp, frameOffsets_nil,
        frameOffsets_setup, frameOffsets_teardown, frameOffsets_cons_enterAlt,
        frameOffsets_cons_hideCur, frameOffsets_cons_clear]

/-- Witness for C5: on a width-4 viewport with a width-1 art, offset 2 is
visited by the leftward run. -/
theorem C5_scroll_driver_witness : (2 : Int) ∈ offsetsDown 4 (-1) :=
  ((C5_scroll_driver [['A']] 1 false ⟨4, 1⟩ (by decide)).2.1 2).mpr (by decide)

/-- **C4 counterexample.**  With viewport width 5 and a first art of width 2
(`["AB"]`), the forward dual-figure run renders its last pre-pause frame at
offset −1 (parity: the loop steps by 2 from 5 and stops after −1 ≥ −2), and
that frame still shows the art's last column — it is not blank.  So the
claim that the viewport is already cleared when the pause starts fails. -/
theorem C4_counterexample :
    animateBothTrace [['A', 'B']] [] [['C']] [] 1 false ⟨5, 1⟩ =
      [Ev.enterAlt, Ev.hideCur, Ev.clear,
       Ev.frame [['A', 'B']] 5, Ev.sleep 1, Ev.frame [['A', 'B']] 3, Ev.sleep 1,
       Ev.frame [['A', 'B']] 1, Ev.sleep 1, Ev.frame [['A', 'B']] (-1), Ev.sleep 1,
       Ev.sleep 3,
       Ev.frame [['C']] 5, Ev.sleep 1, Ev.frame [['C']] 3, Ev.sleep 1,
       Ev.frame [['C']] 1, Ev.sleep 1, Ev.frame [['C']] (-1), Ev.sleep 1,
       Ev.showCur, Ev.exitAlt] ∧
    renderFrame [['A', 'B']] (-1) ⟨5, 1⟩ = [['B', ' ', ' ', ' ', ' ']] ∧
    renderFrame [['A', 'B']] (-1) ⟨5, 1⟩ ≠ [List.replicate 5 ' '] := by
  refine ⟨?_, by decide, by decide⟩
  unfold animateBothTrace
  simp [scrollDown, artWidth]

/-- **C4 (amended).**  In dual-figure mode the trace is a single
enter/exit pair wrapping both scrolls with a `speed × 3` pause and no frame
between them; and *provided* `v.width + artWidth(first figure)` is even,
the final pre-pause frame sits at the far bound (offset `-artWidth`
forward, `v.width` reversed), where the rendered frame is entirely
blank. -/
theorem C4_pause_blank_amended (cu cuR eg egR : List (List Char)) (speed : Nat) (rev : Bool)
    (v : Viewport) (hc : (if rev then cuR else cu) ≠ [])
    (hpar : (((v.width : Int)) + (artWidth (if rev then cuR else cu) : Int)) % 2 = 0) :
    animateBothTrace cu cuR eg egR speed rev v =
      [Ev.enterAlt, Ev.hideCur, Ev.clear]
      ++ (if rev then
            scrollUp (if rev then cuR else cu) speed
              (-(artWidth (if rev then cuR else cu) : Int)) v.width
          else
            scrollDown (if rev then cuR else cu) speed v.width
              (-(artWidth (if rev then cuR else cu) : Int)))
      ++ [Ev.sleep (speed * 3)]
      ++ (if rev then
            scrollUp (if rev then egR else eg) speed
              (-(artWidth (if rev then egR else eg) : Int)) v.width
          else
            scrollDown (if rev then egR else eg) speed v.width
              (-(artWidth (if rev then egR else eg) : Int)))
      ++ [Ev.showCur, Ev.exitAlt] ∧
    (frameOffsets (if rev then
        scrollUp (if rev then cuR else cu) speed
          (-(artWidth (if rev then cuR else cu) : Int)) v.width
      else
        scrollDown (if rev then cuR else cu) speed v.width
          (-(artWidth (if rev then cuR else cu) : Int)))).getLast? =
      some (if rev then (v.width : Int) else -(artWidth (if rev then cuR else cu) : Int)) ∧
    renderFrame (if rev then cuR else cu)
        (if rev then (v.width : Int) else -(artWidth (if rev then cuR else cu) : Int)) v =
      List.replicate v.height (List.replicate v.width ' ') := by
  cases rev with
  | false =>
    simp only [Bool.false_eq_true, if_false] at hpar hc ⊢
    refine ⟨rfl, ?_, ?_⟩
    · rw [frameOffsets_scrollDown]
      exact getLast?_offsetsDown _ _ (by omega) (by omega)
    · apply renderFrame_eq_blank
      intro line hline
      apply composeRow_blank_left _ _ _ (by omega)
      have := length_le_artWidth _ line hline
      omega
  | true =>
    simp only [if_true] at hpar hc ⊢
    refine ⟨rfl, ?_, ?_⟩
    · rw [frameOffsets_scrollUp]
      exact getLast?_offsetsUp _ _ (by omega) (by omega)
    · apply renderFrame_eq_blank
      intro line hline
      exact composeRow_blank_right line _ _ (by omega)

/-- Witness for the amended C4: width-4 viewport, width-2 first art (even
parity), forward mode — the frame at the final offset −2 is entirely
blank. -/
theorem C4_pause_blank_amended_witness :
    renderFrame [['A', 'B']] (-2) ⟨4, 1⟩ = List.replicate 1 (List.replicate 4 ' ') :=
  (C4_pause_blank_amended [['A', 'B']] [] [['C']] [] 1 false ⟨4, 1⟩ (by decide)
    (by decide)).2.2

/-- **C1 (code evaluation at the failing input).**  `main` never tests for
an `--endless` argument: it is filtered out together with every other
`--`-prefixed argument and affects nothing.  Evaluated at
`args = ["--endless"]`, the dispatch selects a single dual-figure
animation at default speed — identical to running with no arguments — and
in general prepending `--endless` to any argument list leaves the chosen
plan unchanged.  The documented endless looping does not exist in the
code. -/
theorem C1_endless_flag_evaluation :
    mainPlan [['c']] [['C']] [['e']] [['E']] ["--endless"] = Plan.animateBoth 30 false ∧
    mainPlan [['c']] [['C']] [['e']] [['E']] ["--endless"] =
      mainPlan [['c']] [['C']] [['e']] [['E']] [] ∧
    (∀ (cu cuR eg egR : List (List Char)) (args : List String),
      mainPlan cu cuR eg egR ("--endless" :: args) = mainPlan cu cuR eg egR args) := by
  refine ⟨by decide, by decide, ?_⟩
  intro cu cuR eg egR args
  have hhelp : ("--endless" :: args).contains "--help" = args.contains "--help" := by
    rw [List.contains_cons, show ("--help" == "--endless") = false from by decide,
      Bool.false_or]
  have hh : ("--endless" :: args).contains "-h" = args.contains "-h" := by
    rw [List.contains_cons, show ("-h" == "--endless") = false from by decide,
      Bool.false_or]
  have hstay : ("--endless" :: args).contains "--stay" = args.contains "--stay" := by
    rw [List.contains_cons, show ("--stay" == "--endless") = false from by decide,
      Bool.false_or]
  have hrev : ("--endless" :: args).contains "--reverse" = args.contains "--reverse" := by
    rw [List.contains_cons, show ("--reverse" == "--endless") = false from by decide,
      Bool.false_or]
  have hfilt : ("--endless" :: args).filter (fun a => !beginsWithTwoDashes a) =
      args.filter (fun a => !beginsWithTwoDashes a) := by
    rw [List.filter_cons, show (!beginsWithTwoDashes "--endless") = false from by decide]
    simp
  unfold mainPlan
  rw [hhelp, hh, hstay, hrev, hfilt]

/-- **C3 (code evaluation at the failing input).**  The `loadArt` filter
drops only the *final* split piece when it is blank (`idx < arr.length - 1`
keeps every earlier index unconditionally), so for content `"x\n\n\n"` —
which splits into `["x", "", "", ""]` — two trailing blank lines survive
and the result's last element is blank, not non-blank. -/
theorem C3_trailing_blank_lines_evaluation :
    loadArtLines ['x', '\n', '\n', '\n'] = [['x'], [], []] ∧
    (loadArtLines ['x', '\n', '\n', '\n']).getLast? = some [] ∧
    loadArt "cucumber.txt" (.ok ['x', '\n', '\n', '\n']) = .ok [['x'], [], []] :=
  ⟨by decide, by decide, rfl⟩

/-- **C9.**  When the backing read fails, `loadArt` reports an error that
carries the resource name and the underlying cause and terminates the
process with exit status 1 (non-zero), with no retry; when the read
succeeds, it returns the split-and-filtered lines. -/
theorem C9_load_failure_reporting (filename msg : String) (content : List Char) :
    loadArt filename (.error msg) =
      .error { resource := filename, cause := msg, exitCode := 1 } ∧
    (({ resource := filename, cause := msg, exitCode := 1 } : LoadError)).exitCode = 1 ∧
    loadArt filename (.ok content) = .ok (loadArtLines content) :=
  ⟨rfl, rfl, rfl⟩

/-- **C10.**  In static mode with both figures, the writes are exactly:
cursor hide, every line of the first art in order, two empty lines, every
line of the second art in order, cursor show — all on the normal output
stream, with no other control sequences. -/
theorem C10_static_both_output (a b : List (List Char)) :
    renderStatic (Sum.inr (a, b)) =
      [OutEv.hideCur] ++ a.map OutEv.line ++ [OutEv.line [], OutEv.line []]
        ++ b.map OutEv.line ++ [OutEv.showCur] ∧
    (renderStatic (Sum.inr (a, b))).head? = some OutEv.hideCur ∧
    (renderStatic (Sum.inr (a, b))).getLast? = some OutEv.showCur ∧
    (renderStatic (Sum.inr (a, b))).filter
        (fun e => match e with | OutEv.line _ => false | _ => true) =
      [OutEv.hideCur, OutEv.showCur] := by
  have hlines : ∀ (l : List (List Char)),
      (l.map OutEv.line).filter
        (fun e => match e with | OutEv.line _ => false | _ => true) = [] := by
    intro l
    induction l with
    | nil => rfl
    | cons x xs ih => simp
  refine ⟨by simp [renderStatic], rfl, ?_, ?_⟩
  · show (([OutEv.hideCur] ++ _) ++ [OutEv.showCur]).getLast? = some OutEv.showCur
    rw [List.getLast?_concat]
  · unfold renderStatic
    simp only [List.filter_append, hlines]
    rfl

end SyoRyoUma
